import Mathlib

/-!
Verification of the Allokera allocation engine and refill calculator.

The definitions below are a shallow embedding of the Python source:
`src/allokera/logic/allocation.py` (the `allocate` function with its
HELPALL / AUTOSTORE / HUVUDPLOCK stages, near-miss recording, tagging,
and the cross-line promotion pass), `src/logic/refill.py`
(`calculate_refill`), `src/allokera/utils/common.py` (`find_col`) and
`src/allokera/config/constants.py`.  Quantities are embedded as
rationals (the Python code works on floats obtained from `to_num`);
fallible column resolution is embedded with `Except`.
-/

namespace Allokera

/-- `NEAR_MISS_PCT` from `config/constants.py`: 15 % over the need. -/
def NEAR_MISS_PCT : ℚ := 15 / 100

/-- A buffer unit (pallet or autostore bin) after normalisation: the fields
the allocation queues keep per row (`source_id`, `qty`, `loc`). -/
structure BufUnit where
  sourceId : String
  qty : ℚ
  loc : String
deriving DecidableEq, Repr

/-- A normalised order line: `_artikel`, `_qty`, `_order_id`, `_order_line`. -/
structure OrderLine where
  art : String
  qty : ℚ
  orderId : String
  orderLine : String
deriving DecidableEq, Repr

/-- One row appended to `allocated_rows`: the cloned order row together with
the four derived columns (zone, source type, source id, source location);
`qty` is the value written into the order quantity column of the clone. -/
structure AllocatedLine where
  art : String
  orderId : String
  orderLine : String
  qty : ℚ
  zon : String
  kalltyp : String
  kalla : String
  kallplats : String
deriving DecidableEq, Repr

/-- One row of `near_miss_rows`.  `mattered` embeds the
`"Gäller (INSTEAD R/A)"` flag written by the tagging pass (absent before
tagging; the tagging pass always writes it for the rows of the processed
line, so we store it as a `Bool` that tagging overwrites). -/
structure NearMissRecord where
  artikel : String
  orderId : String
  orderRad : String
  pallId : String
  kallplats : String
  behov : ℚ
  pallKvantitet : ℚ
  skillnad : ℚ
  pctSkillnad : ℚ
  mattered : Bool
deriving DecidableEq, Repr

/-- `record_near_miss` (allocation.py lines 107–125) as a pure function
returning the record it would append, if any. -/
def recordNearMissOpt (orow : OrderLine) (pal : BufUnit) (need : ℚ) :
    Option NearMissRecord :=
  if need ≤ 0 then none
  else if pal.qty - need ≤ 0 then none
  else if (pal.qty - need) / need ≤ NEAR_MISS_PCT then
    some { artikel := orow.art, orderId := orow.orderId,
           orderRad := orow.orderLine, pallId := pal.sourceId,
           kallplats := pal.loc, behov := need,
           pallKvantitet := pal.qty, skillnad := pal.qty - need,
           pctSkillnad := (pal.qty - need) / need * 100, mattered := false }
  else none

/-- The allocated row emitted when a pallet is wholly consumed in the
HELPALL stage (zone H, type HELPALL). -/
def mkHelpallLine (orow : OrderLine) (pal : BufUnit) : AllocatedLine :=
  { art := orow.art, orderId := orow.orderId, orderLine := orow.orderLine,
    qty := pal.qty, zon := "H", kalltyp := "HELPALL",
    kalla := pal.sourceId, kallplats := pal.loc }

/-- The allocated row emitted when `take` units are consumed from a bin in
the AUTOSTORE stage (zone R, type AUTOSTORE). -/
def mkAutostoreLine (orow : OrderLine) (binr : BufUnit) (take : ℚ) :
    AllocatedLine :=
  { art := orow.art, orderId := orow.orderId, orderLine := orow.orderLine,
    qty := take, zon := "R", kalltyp := "AUTOSTORE",
    kalla := binr.sourceId, kallplats := binr.loc }

/-- The fallback row of the HUVUDPLOCK stage (zone A, empty source). -/
def mkHuvudplockLine (orow : OrderLine) (need : ℚ) : AllocatedLine :=
  { art := orow.art, orderId := orow.orderId, orderLine := orow.orderLine,
    qty := need, zon := "A", kalltyp := "HUVUDPLOCK",
    kalla := "", kallplats := "" }

/-- Result of the HELPALL stage for one line: the surviving pallet queue
(`new_pq`), the emitted allocated rows, the near-miss records appended,
the `any_helpall` flag and the remaining need. -/
structure HelpallRes where
  pq : List BufUnit
  allocs : List AllocatedLine
  ns : List NearMissRecord
  anyHelpall : Bool
  need : ℚ
deriving Repr

/-- The HELPALL stage loop (allocation.py lines 132–154): pop the head
pallet while need > 0; a pallet with `qty ≤ need` is consumed wholly, a
larger pallet is kept in the queue (recording a near miss when within
15 %) and the scan continues; once need reaches 0 the untried tail is
appended back unchanged. -/
def helpallLoop (orow : OrderLine) :
    List BufUnit → ℚ → HelpallRes
  | [], need => { pq := [], allocs := [], ns := [], anyHelpall := false,
                  need := need }
  | pal :: tmp, need =>
    if need ≤ 0 then
      { pq := pal :: tmp, allocs := [], ns := [], anyHelpall := false,
        need := need }
    else if pal.qty ≤ need then
      let r := helpallLoop orow tmp (need - pal.qty)
      { pq := r.pq, allocs := mkHelpallLine orow pal :: r.allocs,
        ns := r.ns, anyHelpall := true, need := r.need }
    else
      let r := helpallLoop orow tmp need
      { pq := pal :: r.pq, allocs := r.allocs,
        ns := (recordNearMissOpt orow pal need).toList ++ r.ns,
        anyHelpall := r.anyHelpall, need := r.need }

/-- Result of the AUTOSTORE stage for one line. -/
structure AutostoreRes where
  bq : List BufUnit
  allocs : List AllocatedLine
  anyAutostore : Bool
  need : ℚ
deriving Repr

/-- The AUTOSTORE stage loop (allocation.py lines 156–176): pop the head
bin while need > 0, consume `min(bin.qty, need)`, emit a row when the
consumed amount is positive, requeue the bin when residual quantity
remains; once need reaches 0 the untried tail is appended back. -/
def autostoreLoop (orow : OrderLine) :
    List BufUnit → ℚ → AutostoreRes
  | [], need => { bq := [], allocs := [], anyAutostore := false, need := need }
  | binr :: bq, need =>
    if need ≤ 0 then
      { bq := binr :: bq, allocs := [], anyAutostore := false, need := need }
    else
      let take := min binr.qty need
      if take > 0 then
        let residual := binr.qty - take
        let r := autostoreLoop orow bq (need - take)
        { bq := (if residual > 0 then [{ binr with qty := residual }] else [])
                  ++ r.bq,
          allocs := mkAutostoreLine orow binr take :: r.allocs,
          anyAutostore := true, need := r.need }
      else
        let r := autostoreLoop orow bq need
        { bq := (if binr.qty > 0 then [binr] else []) ++ r.bq,
          allocs := r.allocs, anyAutostore := r.anyAutostore, need := r.need }

/-- Result of processing one order line through the three stages. -/
structure LineRes where
  pq : List BufUnit
  bq : List BufUnit
  allocs : List AllocatedLine
  ns : List NearMissRecord
  anyHelpall : Bool
  anyAutostore : Bool
  anyMainpick : Bool
deriving Repr

/-- Processing of a single order line (allocation.py lines 127–189):
HELPALL, then AUTOSTORE, then the HUVUDPLOCK fallback.  Returns the
updated queues for the article, the rows appended to `allocated_rows`,
the near-miss records appended (not yet tagged) and the three stage
flags. -/
def processLine (orow : OrderLine) (pq bq : List BufUnit) : LineRes :=
  let need₀ := orow.qty
  let h := helpallLoop orow pq need₀
  let a := autostoreLoop orow bq h.need
  let mainpick := a.need > 0
  let mpAllocs := if a.need > 0 then [mkHuvudplockLine orow a.need] else []
  { pq := h.pq, bq := a.bq, allocs := h.allocs ++ a.allocs ++ mpAllocs,
    ns := h.ns, anyHelpall := h.anyHelpall, anyAutostore := a.anyAutostore,
    anyMainpick := mainpick }

/-- The value the tagging pass (allocation.py lines 191–199) writes into
the `"Gäller (INSTEAD R/A)"` flag of every near-miss record of the
processed line. -/
def matteredValue (anyHelpall anyAutostore anyMainpick : Bool) : Bool :=
  !anyHelpall && (anyAutostore || anyMainpick)

/-- Rewrite the flag of every near-miss record carrying the given
(order id, order line) pair. -/
def tagNearMiss (oid rad : String) (v : Bool) (ns : List NearMissRecord) :
    List NearMissRecord :=
  ns.map fun r =>
    if r.orderId = oid ∧ r.orderRad = rad then { r with mattered := v } else r

/-- The per-article queue maps (`pallet_queues` / `bin_queues`,
`defaultdict(deque)`): total maps defaulting to the empty queue. -/
def Queues : Type := String → List BufUnit

/-- Update one article's queue. -/
def Queues.set (qs : Queues) (art : String) (q : List BufUnit) : Queues :=
  fun a => if a = art then q else qs a

/-- State threaded through the per-line loop of `allocate`: the two queue
maps, the accumulated `allocated_rows` and `near_miss_rows`. -/
structure AllocState where
  pallets : Queues
  bins : Queues
  allocs : List AllocatedLine
  ns : List NearMissRecord

/-- One iteration of the order loop (allocation.py lines 127–199): skip
the line when its need is ≤ 0, otherwise run the three stages, append the
rows, write back the queues and tag every near-miss record of this
(order id, order line). -/
def allocStep (st : AllocState) (orow : OrderLine) : AllocState :=
  if orow.qty ≤ 0 then st
  else
    { pallets := st.pallets.set orow.art
        (processLine orow (st.pallets orow.art) (st.bins orow.art)).pq,
      bins := st.bins.set orow.art
        (processLine orow (st.pallets orow.art) (st.bins orow.art)).bq,
      allocs := st.allocs
        ++ (processLine orow (st.pallets orow.art) (st.bins orow.art)).allocs,
      ns := tagNearMiss orow.orderId orow.orderLine
        (matteredValue
          (processLine orow (st.pallets orow.art)
            (st.bins orow.art)).anyHelpall
          (processLine orow (st.pallets orow.art)
            (st.bins orow.art)).anyAutostore
          (processLine orow (st.pallets orow.art)
            (st.bins orow.art)).anyMainpick)
        (st.ns
          ++ (processLine orow (st.pallets orow.art)
              (st.bins orow.art)).ns) }

/-- The cross-line promotion pass (allocation.py lines 203–221): collect
the articles having some AUTOSTORE row, then rewrite every non-HELPALL
row of those articles to type AUTOSTORE / zone R. -/
def promote (rows : List AllocatedLine) : List AllocatedLine :=
  let autoArts := (rows.filter fun r => r.kalltyp = "AUTOSTORE").map (·.art)
  rows.map fun r =>
    if r.art ∈ autoArts ∧ r.kalltyp ≠ "HELPALL" then
      { r with kalltyp := "AUTOSTORE", zon := "R" }
    else r

/-- The allocation engine on normalised inputs: fold the per-line step
over the orders (in input order) starting from the given queues, then run
the promotion pass over the accumulated rows. -/
def allocate (orders : List OrderLine) (pallets bins : Queues) :
    List AllocatedLine × List NearMissRecord :=
  (promote (orders.foldl allocStep
      { pallets := pallets, bins := bins, allocs := [], ns := [] }).allocs,
   (orders.foldl allocStep
      { pallets := pallets, bins := bins, allocs := [], ns := [] }).ns)

end Allokera

namespace Refill

/-- Python's `round` on a rational: round half to even (banker's
rounding), as used by `int(round(part))` in refill.py. -/
def pyRound (q : ℚ) : ℤ :=
  if q - ⌊q⌋ < 1 / 2 then ⌊q⌋
  else if 1 / 2 < q - ⌊q⌋ then ⌊q⌋ + 1
  else if Even ⌊q⌋ then ⌊q⌋ else ⌊q⌋ + 1

/-- The zone-part distribution of `calculate_refill` (refill.py lines
135–143): each `(zone, qty)` group receives
`int(round(qty / total_need * adjusted_total))`, and the remainder
`int(adjusted_total) - allocated_sum` is added to the first group. -/
def zoneParts (groups : List (String × ℚ)) (totalNeed adjustedTotal : ℚ) :
    List (String × ℤ) :=
  let vals := groups.map fun g =>
    (g.1, pyRound (g.2 / totalNeed * adjustedTotal))
  let allocatedSum := (vals.map (·.2)).sum
  let diff := ⌊adjustedTotal⌋ - allocatedSum
  match vals with
  | [] => []
  | v :: rest => (v.1, v.2 + diff) :: rest

/-- The greedy FIFO pallet count (refill.py lines 151–154 and 192–195):
walk the FIFO-ordered remaining quantities, counting units, until the
running need is exhausted. -/
def fifoCount : List ℚ → ℚ → ℕ
  | [], _ => 0
  | q :: rest, remaining =>
    if remaining ≤ 0 then 0 else 1 + fifoCount rest (remaining - q)

/-- One emitted refill row; `tillracklig` holds the literal
`"Ja"` / `"Nej"` string of the sufficiency column, `zon` is empty for the
autostore branch. -/
structure RefillRow where
  artikel : String
  zon : String
  behov : ℤ
  fifo : ℕ
  tillracklig : String
  plockplats : String
  ejInlagrade : ℤ
deriving DecidableEq, Repr

/-- One row of the main-pick/bulky branch (refill.py lines 156–164):
`behovInt` is the zone's integer part of the shortfall, the sufficiency
flag compares the article's total available buffer to this row's value. -/
def hpRow (artKey zone : String) (behovInt : ℤ) (fifoQtys : List ℚ)
    (pp : String) (npu : ℚ) : RefillRow :=
  { artikel := artKey, zon := zone, behov := behovInt,
    fifo := fifoCount fifoQtys (behovInt : ℚ),
    tillracklig :=
      if fifoQtys.sum ≥ (behovInt : ℚ) then "Ja" else "Nej",
    plockplats := pp, ejInlagrade := pyRound npu }

/-- The per-zone emission loop (refill.py lines 148–164): clamp each part
at 0, skip non-positive parts, emit a row for the rest. -/
def emitHpRows (artKey : String) (parts : List (String × ℤ))
    (fifoQtys : List ℚ) (pp : String) (npu : ℚ) : List RefillRow :=
  parts.filterMap fun part =>
    if max 0 part.2 ≤ 0 then none
    else some (hpRow artKey part.1 (max 0 part.2) fifoQtys pp npu)

/-- The main-pick/bulky branch of `calculate_refill` for one article
(refill.py lines 129–164): `groups` are the per-(article, zone) summed
requested quantities, `saldo` the pick-face stock, `fifoQtys` the
FIFO-ordered remaining buffer quantities of the article (statuses
filtered, consumed HELPALL ids excluded), `npu` the backlog quantity. -/
def mainRowsForArt (artKey : String) (groups : List (String × ℚ))
    (saldo : ℚ) (fifoQtys : List ℚ) (pp : String) (npu : ℚ) :
    List RefillRow :=
  if (groups.map (·.2)).sum ≤ 0 then []
  else if max 0 ((pyRound ((groups.map (·.2)).sum) : ℚ) - saldo) ≤ 0 then []
  else
    emitHpRows artKey
      (zoneParts groups ((groups.map (·.2)).sum)
        (max 0 ((pyRound ((groups.map (·.2)).sum) : ℚ) - saldo)))
      fifoQtys pp npu

/-- The automated-storage branch of `calculate_refill` for one article
(refill.py lines 186–204): `behov` is the summed requested quantity of
the article's source-less AUTOSTORE rows. -/
def asRowForArt (artKey : String) (behov : ℚ) (saldo : ℚ)
    (fifoQtys : List ℚ) (pp : String) (npu : ℚ) : Option RefillRow :=
  if ⌊max 0 ((pyRound behov : ℚ) - saldo)⌋ ≤ 0 then none
  else
    some
      { artikel := artKey, zon := "",
        behov := ⌊max 0 ((pyRound behov : ℚ) - saldo)⌋,
        fifo := fifoCount fifoQtys
          ((⌊max 0 ((pyRound behov : ℚ) - saldo)⌋ : ℤ) : ℚ),
        tillracklig :=
          if fifoQtys.sum ≥ ((⌊max 0 ((pyRound behov : ℚ) - saldo)⌋ : ℤ) : ℚ)
          then "Ja" else "Nej",
        plockplats := pp, ejInlagrade := pyRound npu }

end Refill

namespace Tables

/-- A pandas DataFrame abstracted to what the empty-result claims need:
its column list and its rows (each row a record of cell texts). -/
structure Table where
  cols : List String
  rows : List (List (String × String))
deriving DecidableEq, Repr

/-- The columns of `pd.DataFrame(list_of_records)`: the union of the
record keys in order of first appearance (empty list of records gives a
frame with no columns). -/
def keysUnion (rows : List (List (String × String))) : List String :=
  rows.foldl
    (fun acc row =>
      row.foldl (fun a kv => if kv.1 ∈ a then a else a ++ [kv.1]) acc)
    []

/-- `pd.DataFrame(rows)` built from a list of records. -/
def dfOfRecords (rows : List (List (String × String))) : Table :=
  { cols := keysUnion rows, rows := rows }

/-- The allocated-lines table construction (allocation.py lines 223–228):
a non-empty frame is reindexed to `ordered_cols`; an empty one is rebuilt
as `pd.DataFrame(columns=ordered_cols)`. -/
def allocatedTable (rows : List (List (String × String)))
    (orderedCols : List String) : Table :=
  if rows.isEmpty then { cols := orderedCols, rows := [] }
  else { cols := orderedCols, rows := rows }

/-- The near-miss table construction (allocation.py line 230):
`pd.DataFrame(near_miss_rows)` with no column reindexing. -/
def nearMissTable (rows : List (List (String × String))) : Table :=
  dfOfRecords rows

/-- The main-pick refill table construction (refill.py lines 166–168):
`pd.DataFrame(rows_hp)`, sorted only when non-empty (sorting keeps the
columns). -/
def refillHpTable (rows : List (List (String × String))) : Table :=
  dfOfRecords rows

/-- The autostore refill table construction (refill.py lines 206–208):
`pd.DataFrame(rows_as)`, sorted only when non-empty. -/
def refillAsTable (rows : List (List (String × String))) : Table :=
  dfOfRecords rows

/-- The full column set of a near-miss record, including the tag column
written by the per-line tagging pass. -/
def nearMissExpectedCols : List String :=
  ["Artikel", "OrderID", "OrderRad", "PallID", "Källplats", "Mottagen",
   "Behov_vid_tillfället", "Pall_kvantitet", "Skillnad",
   "Procentuell skillnad (%)", "Anledning", "Gäller (INSTEAD R/A)"]

/-- The full column set of a main-pick refill row (refill.py lines
156–164). -/
def refillHpExpectedCols : List String :=
  ["Artikel", "Zon", "Behov (kolli)", "FIFO-baserad beräkning",
   "Tillräckligt tillgängligt saldo i buffert", "Plockplats",
   "Ej inlagrade (antal)"]

end Tables

namespace Schema

/-- `ORDER_SCHEMA["artikel"]` from io/schemas.py. -/
def ORDER_ARTIKEL : List String :=
  ["artikel", "artikelnummer", "sku", "article", "artnr", "art.nr"]

/-- `ORDER_SCHEMA["qty"]`. -/
def ORDER_QTY : List String :=
  ["beställt", "antal", "qty", "quantity", "bestalld", "order qty"]

/-- `BUFFER_SCHEMA["artikel"]`. -/
def BUFFER_ARTIKEL : List String :=
  ["artikel", "article", "artnr", "art.nr", "artikelnummer"]

/-- `BUFFER_SCHEMA["qty"]`. -/
def BUFFER_QTY : List String :=
  ["antal", "qty", "quantity", "pallantal", "colli", "units"]

/-- `BUFFER_SCHEMA["loc"]`. -/
def BUFFER_LOC : List String :=
  ["lagerplats", "plats", "location", "bin", "hyllplats"]

/-- ASCII lowercasing of one character, as Python's `str.lower` acts on
the A–Z range (the schema candidates are ASCII except for
pre-lowercased Swedish letters, which both sides leave unchanged). -/
def lowerChar (c : Char) : Char :=
  if 65 ≤ c.toNat ∧ c.toNat ≤ 90 then Char.ofNat (c.toNat + 32) else c

/-- `s.lower()` on a string. -/
def sLower (s : String) : String := ⟨s.data.map lowerChar⟩

/-- Substring test `needle in hay` on strings (both assumed to carry the
casing the caller prepared, as in `find_col`). -/
def strContains (hay needle : String) : Bool :=
  hay.data.tails.any (needle.data.isPrefixOf ·)

/-- The dict `{c.lower(): c for c in df.columns}`: an association list
from lowercased column name to original name, later duplicates replacing
the stored value while keeping first-insertion order. -/
def lowerMap (cols : List String) : List (String × String) :=
  cols.foldl
    (fun m c =>
      if m.any (fun p => p.1 = sLower c) then
        m.map fun p => if p.1 = sLower c then (sLower c, c) else p
      else m ++ [(sLower c, c)])
    []

/-- The error payload of the `KeyError` raised by `find_col`
(utils/common.py line 85): the message interpolates the candidate list
and the table's actual columns. -/
structure FindColError where
  candidates : List String
  columns : List String
deriving DecidableEq, Repr

instance instDecEqExcept {ε α : Type} [DecidableEq ε] [DecidableEq α] :
    DecidableEq (Except ε α) := fun x y =>
  match x, y with
  | .ok a, .ok b =>
    if h : a = b then isTrue (by rw [h])
    else isFalse (by intro hc; cases hc; exact h rfl)
  | .error a, .error b =>
    if h : a = b then isTrue (by rw [h])
    else isFalse (by intro hc; cases hc; exact h rfl)
  | .ok _, .error _ => isFalse (by intro hc; cases hc)
  | .error _, .ok _ => isFalse (by intro hc; cases hc)

/-- `find_col` (utils/common.py lines 77–86): exact case-insensitive
match over the candidates in order, then substring match scanning the
column map, then raise when the field is required with no default, else
return the default. -/
def find_col (cols candidates : List String) (required : Bool)
    (default : Option String) : Except FindColError (Option String) :=
  match candidates.findSome?
      (fun cand =>
        ((lowerMap cols).find? (fun p => p.1 = sLower cand)).map (·.2)) with
  | some orig => .ok (some orig)
  | none =>
    match (lowerMap cols).findSome?
        (fun p =>
          if candidates.any (fun cand => strContains p.1 (sLower cand)) then
            some p.2
          else none) with
    | some orig => .ok (some orig)
    | none =>
      if required ∧ default = none then .error ⟨candidates, cols⟩
      else .ok default

end Schema

namespace Allokera

theorem helpallLoop_sum (orow : OrderLine) (q : List BufUnit) :
    ∀ need : ℚ,
      ((helpallLoop orow q need).allocs.map (fun a => a.qty)).sum
        + (helpallLoop orow q need).need = need := by
  induction q with
  | nil => intro need; simp [helpallLoop]
  | cons pal tmp ih =>
    intro need
    by_cases h1 : need ≤ 0
    · simp [helpallLoop, h1]
    · by_cases h2 : pal.qty ≤ need
      · have h3 := ih (need - pal.qty)
        simp only [helpallLoop, if_neg h1, if_pos h2, List.map_cons,
          List.sum_cons, mkHelpallLine]
        linarith
      · have h3 := ih need
        simp only [helpallLoop, if_neg h1, if_neg h2]
        linarith

theorem helpallLoop_need_nonneg (orow : OrderLine) (q : List BufUnit) :
    ∀ need : ℚ, 0 ≤ need → 0 ≤ (helpallLoop orow q need).need := by
  induction q with
  | nil => intro need h; simpa [helpallLoop] using h
  | cons pal tmp ih =>
    intro need h
    by_cases h1 : need ≤ 0
    · simpa [helpallLoop, h1] using h
    · by_cases h2 : pal.qty ≤ need
      · simp only [helpallLoop, if_neg h1, if_pos h2]
        exact ih (need - pal.qty) (by linarith)
      · simp only [helpallLoop, if_neg h1, if_neg h2]
        exact ih need h

theorem autostoreLoop_sum (orow : OrderLine) (q : List BufUnit) :
    ∀ need : ℚ,
      ((autostoreLoop orow q need).allocs.map (fun a => a.qty)).sum
        + (autostoreLoop orow q need).need = need := by
  induction q with
  | nil => intro need; simp [autostoreLoop]
  | cons binr bq ih =>
    intro need
    by_cases h1 : need ≤ 0
    · simp [autostoreLoop, h1]
    · by_cases h2 : min binr.qty need > 0
      · have h3 := ih (need - min binr.qty need)
        simp only [autostoreLoop, if_neg h1, if_pos h2, List.map_cons,
          List.sum_cons, mkAutostoreLine]
        linarith
      · have h3 := ih need
        simp only [autostoreLoop, if_neg h1, if_neg h2]
        linarith

theorem autostoreLoop_need_nonneg (orow : OrderLine) (q : List BufUnit) :
    ∀ need : ℚ, 0 ≤ need → 0 ≤ (autostoreLoop orow q need).need := by
  induction q with
  | nil => intro need h; simpa [autostoreLoop] using h
  | cons binr bq ih =>
    intro need h
    by_cases h1 : need ≤ 0
    · simpa [autostoreLoop, h1] using h
    · by_cases h2 : min binr.qty need > 0
      · simp only [autostoreLoop, if_neg h1, if_pos h2]
        exact ih (need - min binr.qty need)
          (by simp only [sub_nonneg]; exact min_le_right _ _)
      · simp only [autostoreLoop, if_neg h1, if_neg h2]
        exact ih need h

theorem processLine_sum (orow : OrderLine) (pq bq : List BufUnit)
    (h : 0 ≤ orow.qty) :
    ((processLine orow pq bq).allocs.map (fun a => a.qty)).sum
      = orow.qty := by
  have hH := helpallLoop_sum orow pq orow.qty
  have hHn := helpallLoop_need_nonneg orow pq orow.qty h
  have hA := autostoreLoop_sum orow bq (helpallLoop orow pq orow.qty).need
  have hAn := autostoreLoop_need_nonneg orow bq
    (helpallLoop orow pq orow.qty).need hHn
  simp only [processLine]
  by_cases hm : (autostoreLoop orow bq (helpallLoop orow pq orow.qty).need).need > 0
  · simp only [if_pos hm, List.map_append, List.sum_append, List.map_cons,
      List.sum_cons, List.map_nil, List.sum_nil, mkHuvudplockLine]
    linarith
  · simp only [if_neg hm, List.map_append, List.sum_append, List.map_nil,
      List.sum_nil]
    have : (autostoreLoop orow bq (helpallLoop orow pq orow.qty).need).need
        = 0 := le_antisymm (not_lt.mp hm) hAn
    linarith

theorem promote_map_qty (rows : List AllocatedLine) :
    (promote rows).map (fun r => r.qty) = rows.map (fun r => r.qty) := by
  simp only [promote, List.map_map]
  refine List.map_congr_left fun r _ => ?_
  simp only [Function.comp]
  split_ifs <;> rfl

end Allokera

/-- C1: for every order line with requested quantity > 0 processed by
`allocate`, the allocated quantities emitted for that line across the
HELPALL, AUTOSTORE and HUVUDPLOCK stages sum to the line's original
requested quantity, and the cross-line promotion pass preserves every
allocated quantity. -/
theorem C1_line_allocations_sum_to_need (orow : Allokera.OrderLine)
    (pq bq : List Allokera.BufUnit) (h : 0 < orow.qty) :
    ((Allokera.processLine orow pq bq).allocs.map (fun a => a.qty)).sum
        = orow.qty ∧
      ∀ rows : List Allokera.AllocatedLine,
        (Allokera.promote rows).map (fun r => r.qty)
          = rows.map (fun r => r.qty) :=
  ⟨Allokera.processLine_sum orow pq bq h.le,
   fun rows => Allokera.promote_map_qty rows⟩

/-- Witness for C1 at a concrete line: need 10, one pallet of 4, one bin
of 3 (allocations 4 + 3 + 3 = 10). -/
theorem C1_line_allocations_sum_to_need_witness :
    ((Allokera.processLine ⟨"A", 10, "o1", "r1"⟩ [⟨"P1", 4, "L1"⟩]
        [⟨"B1", 3, "AUTOSTORE-1"⟩]).allocs.map (fun a => a.qty)).sum
      = 10 :=
  (C1_line_allocations_sum_to_need ⟨"A", 10, "o1", "r1"⟩ [⟨"P1", 4, "L1"⟩]
    [⟨"B1", 3, "AUTOSTORE-1"⟩] (by norm_num)).1

namespace Allokera

theorem helpallLoop_pq_sublist (orow : OrderLine) (q : List BufUnit) :
    ∀ need : ℚ, (helpallLoop orow q need).pq.Sublist q := by
  induction q with
  | nil => intro need; simp [helpallLoop]
  | cons pal tmp ih =>
    intro need
    by_cases h1 : need ≤ 0
    · simp [helpallLoop, h1]
    · by_cases h2 : pal.qty ≤ need
      · simp only [helpallLoop, if_neg h1, if_pos h2]
        exact (ih (need - pal.qty)).cons pal
      · simp only [helpallLoop, if_neg h1, if_neg h2]
        exact (ih need).cons₂ pal

theorem helpallLoop_consumed_or_kept (orow : OrderLine) (q : List BufUnit) :
    ∀ need : ℚ, ∀ p ∈ q,
      p ∈ (helpallLoop orow q need).pq ∨
        mkHelpallLine orow p ∈ (helpallLoop orow q need).allocs := by
  induction q with
  | nil => intro need p hp; cases hp
  | cons pal tmp ih =>
    intro need p hp
    by_cases h1 : need ≤ 0
    · exact .inl (by simpa [helpallLoop, h1] using hp)
    · by_cases h2 : pal.qty ≤ need
      · simp only [helpallLoop, if_neg h1, if_pos h2]
        rcases List.mem_cons.mp hp with rfl | hp'
        · exact .inr (List.mem_cons_self _ _)
        · rcases ih (need - pal.qty) p hp' with h | h
          · exact .inl h
          · exact .inr (List.mem_cons_of_mem _ h)
      · simp only [helpallLoop, if_neg h1, if_neg h2]
        rcases List.mem_cons.mp hp with rfl | hp'
        · exact .inl (List.mem_cons_self _ _)
        · rcases ih need p hp' with h | h
          · exact .inl (List.mem_cons_of_mem _ h)
          · exact .inr h

theorem helpallLoop_big_stays (orow : OrderLine) (q : List BufUnit)
    (hq : ∀ u ∈ q, 0 < u.qty) :
    ∀ need : ℚ, ∀ p ∈ q, need < p.qty →
      p ∈ (helpallLoop orow q need).pq := by
  induction q with
  | nil => intro need p hp; cases hp
  | cons pal tmp ih =>
    intro need p hp hbig
    have hq' : ∀ u ∈ tmp, 0 < u.qty := fun u hu =>
      hq u (List.mem_cons_of_mem _ hu)
    by_cases h1 : need ≤ 0
    · simpa [helpallLoop, h1] using hp
    · by_cases h2 : pal.qty ≤ need
      · simp only [helpallLoop, if_neg h1, if_pos h2]
        rcases List.mem_cons.mp hp with rfl | hp'
        · exact absurd hbig (not_lt.mpr h2)
        · exact ih hq' (need - pal.qty) p hp'
            (lt_of_le_of_lt (by linarith [hq pal (List.mem_cons_self pal tmp)])
              hbig)
      · simp only [helpallLoop, if_neg h1, if_neg h2]
        rcases List.mem_cons.mp hp with rfl | hp'
        · exact List.mem_cons_self _ _
        · exact List.mem_cons_of_mem _ (ih hq' need p hp' hbig)

end Allokera

/-- C2 counterexample: with remaining need 10 and pallet queue
[P1 (qty 20), P2 (qty 5)], the claim says the scan stops at P1 and P2 is
neither examined nor consumed; the code in fact skips P1 (keeping it in
the queue) and consumes P2 as a HELPALL line. -/
theorem C2_counterexample :
    (Allokera.helpallLoop ⟨"A", 10, "o1", "r1"⟩
        [⟨"P1", 20, "L1"⟩, ⟨"P2", 5, "L2"⟩] 10).allocs
      = [Allokera.mkHelpallLine ⟨"A", 10, "o1", "r1"⟩ ⟨"P2", 5, "L2"⟩] ∧
    (Allokera.helpallLoop ⟨"A", 10, "o1", "r1"⟩
        [⟨"P1", 20, "L1"⟩, ⟨"P2", 5, "L2"⟩] 10).pq
      = [⟨"P1", 20, "L1"⟩] := by
  constructor <;> rfl

/-- C2 amended: a pallet whose quantity exceeds the remaining need is left
in the queue, but the scan continues with the pallets after it.  Stated
as: the surviving queue is a subsequence of the original (untried and
skipped pallets stay in FIFO order), every pallet is either still in the
queue afterwards or was wholly consumed as a HELPALL line, and a pallet
larger than the line's whole remaining need is always left in the queue
(assuming the positive-quantity buffer filter). -/
theorem C2_helpall_scan_continues (orow : Allokera.OrderLine)
    (q : List Allokera.BufUnit) (need : ℚ)
    (hq : ∀ u ∈ q, 0 < u.qty) :
    (Allokera.helpallLoop orow q need).pq.Sublist q ∧
      (∀ p ∈ q, p ∈ (Allokera.helpallLoop orow q need).pq ∨
        Allokera.mkHelpallLine orow p
          ∈ (Allokera.helpallLoop orow q need).allocs) ∧
      (∀ p ∈ q, need < p.qty → p ∈ (Allokera.helpallLoop orow q need).pq) :=
  ⟨Allokera.helpallLoop_pq_sublist orow q need,
   Allokera.helpallLoop_consumed_or_kept orow q need,
   Allokera.helpallLoop_big_stays orow q hq need⟩

/-- Witness for C2 amended at the counterexample input: the oversized
pallet P1 stays in the queue while the scan continues past it. -/
theorem C2_helpall_scan_continues_witness :
    (⟨"P1", 20, "L1"⟩ : Allokera.BufUnit)
      ∈ (Allokera.helpallLoop ⟨"A", 10, "o1", "r1"⟩
          [⟨"P1", 20, "L1"⟩, ⟨"P2", 5, "L2"⟩] 10).pq :=
  (C2_helpall_scan_continues ⟨"A", 10, "o1", "r1"⟩
      [⟨"P1", 20, "L1"⟩, ⟨"P2", 5, "L2"⟩] 10
      (by intro u hu; fin_cases hu <;> norm_num)).2.2
    ⟨"P1", 20, "L1"⟩ (by norm_num) (by norm_num)

namespace Allokera

theorem recordNearMissOpt_mem_toList (orow : OrderLine) (pal : BufUnit)
    (need : ℚ) (rec : NearMissRecord)
    (h : rec ∈ (recordNearMissOpt orow pal need).toList) :
    rec.behov = need ∧ rec.pallKvantitet = pal.qty ∧ 0 < need ∧
      need < pal.qty ∧ (pal.qty - need) / need ≤ NEAR_MISS_PCT := by
  unfold recordNearMissOpt at h
  split_ifs at h with h1 h2 h3
  · simp at h
  · simp at h
  · rcases List.mem_singleton.mp (by simpa using h) with rfl
    exact ⟨rfl, rfl, not_le.mp h1, by simpa [sub_pos] using not_le.mp h2, h3⟩
  · simp at h

theorem helpallLoop_ns_condition (orow : OrderLine) (q : List BufUnit) :
    ∀ need : ℚ, ∀ rec ∈ (helpallLoop orow q need).ns,
      0 < rec.behov ∧ rec.behov < rec.pallKvantitet ∧
        (rec.pallKvantitet - rec.behov) / rec.behov ≤ NEAR_MISS_PCT := by
  induction q with
  | nil => intro need rec h; cases h
  | cons pal tmp ih =>
    intro need rec h
    by_cases h1 : need ≤ 0
    · rw [show (helpallLoop orow (pal :: tmp) need).ns = [] by
        simp [helpallLoop, h1]] at h
      cases h
    · by_cases h2 : pal.qty ≤ need
      · simp only [helpallLoop, if_neg h1, if_pos h2] at h
        exact ih (need - pal.qty) rec h
      · simp only [helpallLoop, if_neg h1, if_neg h2,
          List.mem_append] at h
        rcases h with h | h
        · obtain ⟨hb, hp, hpos, hlt, hpct⟩ :=
            recordNearMissOpt_mem_toList orow pal need rec h
          exact ⟨hb ▸ hpos, by rw [hb, hp]; exact hlt, by rw [hb, hp]; exact hpct⟩
        · exact ih need rec h

end Allokera

/-- C3: for a pallet examined while remaining need is positive, a
NearMissRecord is produced iff the pallet is strictly larger than the
need and at most 15 % larger (boundary included); a pallet not larger
than the need never produces one; and every record the HELPALL stage
emits satisfies the near-miss condition at its recorded need. -/
theorem C3_near_miss_condition (orow : Allokera.OrderLine)
    (pal : Allokera.BufUnit) (need : ℚ) (h : 0 < need) :
    ((Allokera.recordNearMissOpt orow pal need).isSome = true ↔
        need < pal.qty ∧ (pal.qty - need) / need ≤ 15 / 100) ∧
      (pal.qty ≤ need → Allokera.recordNearMissOpt orow pal need = none) ∧
      (∀ (q : List Allokera.BufUnit) (need' : ℚ),
        ∀ rec ∈ (Allokera.helpallLoop orow q need').ns,
          0 < rec.behov ∧ rec.behov < rec.pallKvantitet ∧
            (rec.pallKvantitet - rec.behov) / rec.behov ≤ 15 / 100) := by
  refine ⟨?_, ?_, ?_⟩
  · unfold Allokera.recordNearMissOpt
    rw [if_neg (not_le.mpr h)]
    split_ifs with h2 h3
    · simp only [Option.isSome_none, Bool.false_eq_true, false_iff]
      rintro ⟨hlt, -⟩
      exact absurd (sub_pos.mpr hlt) (not_lt.mpr h2)
    · simp only [Option.isSome_some, true_iff]
      exact ⟨by simpa [sub_pos] using not_le.mp h2, h3⟩
    · simp only [Option.isSome_none, Bool.false_eq_true, false_iff]
      rintro ⟨-, hpct⟩
      exact h3 hpct
  · intro hle
    unfold Allokera.recordNearMissOpt
    rw [if_neg (not_le.mpr h), if_pos (by linarith : pal.qty - need ≤ 0)]
  · intro q need' rec hrec
    exact Allokera.helpallLoop_ns_condition orow q need' rec hrec

/-- Witness for C3: a pallet of 11 against a need of 10 (10 % over) does
produce a near-miss record. -/
theorem C3_near_miss_condition_witness :
    (Allokera.recordNearMissOpt ⟨"A", 10, "o1", "r1"⟩ ⟨"P1", 11, "L1"⟩
        10).isSome = true :=
  (C3_near_miss_condition ⟨"A", 10, "o1", "r1"⟩ ⟨"P1", 11, "L1"⟩ 10
      (by norm_num)).1.mpr (by norm_num)

namespace Allokera

theorem tagNearMiss_mem (oid rad : String) (v : Bool)
    (ns : List NearMissRecord) (rec : NearMissRecord)
    (hmem : rec ∈ tagNearMiss oid rad v ns)
    (hid : rec.orderId = oid) (hrad : rec.orderRad = rad) :
    rec.mattered = v := by
  rcases List.mem_map.mp hmem with ⟨x, -, hx⟩
  by_cases hc : x.orderId = oid ∧ x.orderRad = rad
  · rw [if_pos hc] at hx
    rw [← hx]
  · rw [if_neg hc] at hx
    exact absurd (hx ▸ ⟨hid, hrad⟩) hc

theorem helpallLoop_allocs_kalltyp (orow : OrderLine) (q : List BufUnit) :
    ∀ need : ℚ, ∀ a ∈ (helpallLoop orow q need).allocs,
      a.kalltyp = "HELPALL" := by
  induction q with
  | nil => intro need a ha; cases ha
  | cons pal tmp ih =>
    intro need a ha
    by_cases h1 : need ≤ 0
    · rw [show (helpallLoop orow (pal :: tmp) need).allocs = [] by
        simp [helpallLoop, h1]] at ha
      cases ha
    · by_cases h2 : pal.qty ≤ need
      · simp only [helpallLoop, if_neg h1, if_pos h2, List.mem_cons] at ha
        rcases ha with rfl | ha
        · rfl
        · exact ih (need - pal.qty) a ha
      · simp only [helpallLoop, if_neg h1, if_neg h2] at ha
        exact ih need a ha

theorem helpallLoop_anyHelpall_iff (orow : OrderLine) (q : List BufUnit) :
    ∀ need : ℚ, ((helpallLoop orow q need).anyHelpall = true ↔
      (helpallLoop orow q need).allocs ≠ []) := by
  induction q with
  | nil => intro need; simp [helpallLoop]
  | cons pal tmp ih =>
    intro need
    by_cases h1 : need ≤ 0
    · simp [helpallLoop, h1]
    · by_cases h2 : pal.qty ≤ need
      · simp [helpallLoop, h1, h2]
      · simpa only [helpallLoop, if_neg h1, if_neg h2] using ih need

theorem autostoreLoop_allocs_kalltyp (orow : OrderLine) (q : List BufUnit) :
    ∀ need : ℚ, ∀ a ∈ (autostoreLoop orow q need).allocs,
      a.kalltyp = "AUTOSTORE" := by
  induction q with
  | nil => intro need a ha; cases ha
  | cons binr bq ih =>
    intro need a ha
    by_cases h1 : need ≤ 0
    · rw [show (autostoreLoop orow (binr :: bq) need).allocs = [] by
        simp [autostoreLoop, h1]] at ha
      cases ha
    · by_cases h2 : min binr.qty need > 0
      · simp only [autostoreLoop, if_neg h1, if_pos h2, List.mem_cons] at ha
        rcases ha with rfl | ha
        · rfl
        · exact ih (need - min binr.qty need) a ha
      · simp only [autostoreLoop, if_neg h1, if_neg h2] at ha
        exact ih need a ha

theorem autostoreLoop_anyAutostore_iff (orow : OrderLine)
    (q : List BufUnit) :
    ∀ need : ℚ, ((autostoreLoop orow q need).anyAutostore = true ↔
      (autostoreLoop orow q need).allocs ≠ []) := by
  induction q with
  | nil => intro need; simp [autostoreLoop]
  | cons binr bq ih =>
    intro need
    by_cases h1 : need ≤ 0
    · simp [autostoreLoop, h1]
    · by_cases h2 : min binr.qty need > 0
      · simp [autostoreLoop, h1, h2]
      · simpa only [autostoreLoop, if_neg h1, if_neg h2] using ih need

theorem processLine_anyHelpall_iff (orow : OrderLine)
    (pq bq : List BufUnit) :
    ((processLine orow pq bq).anyHelpall = true ↔
      ∃ a ∈ (processLine orow pq bq).allocs, a.kalltyp = "HELPALL") := by
  simp only [processLine]
  constructor
  · intro h
    obtain ⟨a, ha⟩ := List.exists_mem_of_ne_nil _
      ((helpallLoop_anyHelpall_iff orow pq orow.qty).mp h)
    exact ⟨a, by simp [List.mem_append, ha],
      helpallLoop_allocs_kalltyp orow pq orow.qty a ha⟩
  · rintro ⟨a, ha, hk⟩
    simp only [List.mem_append] at ha
    rcases ha with (ha | ha) | ha
    · exact (helpallLoop_anyHelpall_iff orow pq orow.qty).mpr
        (List.ne_nil_of_mem ha)
    · have h2 := autostoreLoop_allocs_kalltyp orow bq _ a ha
      rw [hk] at h2
      exact absurd h2 (by decide)
    · rcases Classical.em
          ((autostoreLoop orow bq (helpallLoop orow pq orow.qty).need).need
            > 0) with hm | hm
      · rw [if_pos hm] at ha
        rcases List.mem_singleton.mp ha with rfl
        exact absurd hk (by simp [mkHuvudplockLine])
      · rw [if_neg hm] at ha
        cases ha

theorem processLine_usedAutoOrMain_iff (orow : OrderLine)
    (pq bq : List BufUnit) :
    (((processLine orow pq bq).anyAutostore
        || (processLine orow pq bq).anyMainpick) = true ↔
      ∃ a ∈ (processLine orow pq bq).allocs,
        a.kalltyp = "AUTOSTORE" ∨ a.kalltyp = "HUVUDPLOCK") := by
  simp only [processLine, Bool.or_eq_true]
  constructor
  · rintro (h | h)
    · obtain ⟨a, ha⟩ := List.exists_mem_of_ne_nil _
        ((autostoreLoop_anyAutostore_iff orow bq _).mp h)
      exact ⟨a, by simp [List.mem_append, ha],
        .inl (autostoreLoop_allocs_kalltyp orow bq _ a ha)⟩
    · have hm : (autostoreLoop orow bq
          (helpallLoop orow pq orow.qty).need).need > 0 := of_decide_eq_true h
      refine ⟨mkHuvudplockLine orow
        (autostoreLoop orow bq (helpallLoop orow pq orow.qty).need).need,
        ?_, .inr rfl⟩
      simp [List.mem_append, if_pos hm]
  · rintro ⟨a, ha, hk⟩
    simp only [List.mem_append] at ha
    rcases ha with (ha | ha) | ha
    · have := helpallLoop_allocs_kalltyp orow pq orow.qty a ha
      rcases hk with hk | hk <;> rw [this] at hk <;> exact absurd hk (by decide)
    · exact .inl ((autostoreLoop_anyAutostore_iff orow bq _).mpr
        (List.ne_nil_of_mem ha))
    · rcases Classical.em
          ((autostoreLoop orow bq (helpallLoop orow pq orow.qty).need).need
            > 0) with hm | hm
      · exact .inr (decide_eq_true hm)
      · rw [if_neg hm] at ha
        cases ha

end Allokera

/-- C4 counterexample: order line (o1, r1) with need 10 meets pallets
[P1 (qty 11), P2 (qty 5)]: P1 yields a near-miss record (10 % over), P2
is consumed as HELPALL, and the remaining need 5 falls through to
HUVUDPLOCK.  The line therefore used HUVUDPLOCK, so the claim says the
record's "mattered" flag is true — but the code also requires that no
HELPALL allocation happened, and leaves the flag false. -/
theorem C4_counterexample :
    (Allokera.allocStep
        { pallets := fun _ => [⟨"P1", 11, "L1"⟩, ⟨"P2", 5, "L2"⟩],
          bins := fun _ => [], allocs := [], ns := [] }
        ⟨"A", 10, "o1", "r1"⟩).ns
      = [{ artikel := "A", orderId := "o1", orderRad := "r1",
           pallId := "P1", kallplats := "L1", behov := 10,
           pallKvantitet := 11, skillnad := 1, pctSkillnad := 10,
           mattered := false }] ∧
    (Allokera.allocStep
        { pallets := fun _ => [⟨"P1", 11, "L1"⟩, ⟨"P2", 5, "L2"⟩],
          bins := fun _ => [], allocs := [], ns := [] }
        ⟨"A", 10, "o1", "r1"⟩).allocs.map (fun a => a.kalltyp)
      = ["HELPALL", "HUVUDPLOCK"] := by
  norm_num [Allokera.allocStep, Allokera.processLine, Allokera.helpallLoop,
    Allokera.autostoreLoop, Allokera.tagNearMiss, Allokera.recordNearMissOpt,
    Allokera.NEAR_MISS_PCT, Allokera.matteredValue, Allokera.mkHelpallLine,
    Allokera.mkHuvudplockLine]

/-- C4 amended: after a line is processed, every near-miss record carrying
the line's (order id, line id) has its flag set to true iff the line made
no HELPALL allocation and some allocation of the line came from AUTOSTORE
or HUVUDPLOCK; with a HELPALL allocation present the flag is false even
when the line also used AUTOSTORE or HUVUDPLOCK. -/
theorem C4_mattered_flag (st : Allokera.AllocState)
    (orow : Allokera.OrderLine) (h0 : 0 < orow.qty) :
    ∀ rec ∈ (Allokera.allocStep st orow).ns,
      rec.orderId = orow.orderId → rec.orderRad = orow.orderLine →
      (rec.mattered = true ↔
        (¬ (∃ a ∈ (Allokera.processLine orow (st.pallets orow.art)
              (st.bins orow.art)).allocs, a.kalltyp = "HELPALL")) ∧
          ∃ a ∈ (Allokera.processLine orow (st.pallets orow.art)
              (st.bins orow.art)).allocs,
            a.kalltyp = "AUTOSTORE" ∨ a.kalltyp = "HUVUDPLOCK") := by
  intro rec hrec hid hrad
  rw [Allokera.allocStep, if_neg (not_le.mpr h0)] at hrec
  have hv := Allokera.tagNearMiss_mem orow.orderId orow.orderLine _ _ rec
    hrec hid hrad
  rw [hv]
  rw [Allokera.matteredValue, Bool.and_eq_true, Bool.not_eq_true',
    ← Bool.not_eq_true]
  rw [Allokera.processLine_anyHelpall_iff orow (st.pallets orow.art)
    (st.bins orow.art), Allokera.processLine_usedAutoOrMain_iff orow
    (st.pallets orow.art) (st.bins orow.art)]

/-- Witness for C4 amended, at the counterexample input: the recorded
near miss of line (o1, r1) has its flag false, and indeed the line made a
HELPALL allocation. -/
theorem C4_mattered_flag_witness :
    ({ artikel := "A", orderId := "o1", orderRad := "r1", pallId := "P1",
       kallplats := "L1", behov := 10, pallKvantitet := 11, skillnad := 1,
       pctSkillnad := 10, mattered := false } :
        Allokera.NearMissRecord).mattered = true ↔
      (¬ (∃ a ∈ (Allokera.processLine ⟨"A", 10, "o1", "r1"⟩
            [⟨"P1", 11, "L1"⟩, ⟨"P2", 5, "L2"⟩] []).allocs,
          a.kalltyp = "HELPALL")) ∧
        ∃ a ∈ (Allokera.processLine ⟨"A", 10, "o1", "r1"⟩
            [⟨"P1", 11, "L1"⟩, ⟨"P2", 5, "L2"⟩] []).allocs,
          a.kalltyp = "AUTOSTORE" ∨ a.kalltyp = "HUVUDPLOCK" :=
  C4_mattered_flag
    { pallets := fun _ => [⟨"P1", 11, "L1"⟩, ⟨"P2", 5, "L2"⟩],
      bins := fun _ => [], allocs := [], ns := [] }
    ⟨"A", 10, "o1", "r1"⟩ (by norm_num) _
    (by norm_num [Allokera.allocStep, Allokera.processLine,
      Allokera.helpallLoop, Allokera.autostoreLoop, Allokera.tagNearMiss,
      Allokera.recordNearMissOpt, Allokera.NEAR_MISS_PCT,
      Allokera.matteredValue, Allokera.mkHelpallLine,
      Allokera.mkHuvudplockLine])
    rfl rfl

namespace Allokera

theorem promote_art_mem_autoArts (rows : List AllocatedLine)
    (r : AllocatedLine) (hr : r ∈ promote rows)
    (hrk : r.kalltyp = "AUTOSTORE") :
    r.art ∈ (rows.filter fun x => x.kalltyp = "AUTOSTORE").map
      (fun x => x.art) := by
  rcases List.mem_map.mp hr with ⟨r0, hr0, hg⟩
  by_cases hc : r0.art ∈ ((rows.filter fun x =>
      x.kalltyp = "AUTOSTORE").map (fun x => x.art)) ∧ r0.kalltyp ≠ "HELPALL"
  · rw [if_pos hc] at hg
    rw [← hg]
    exact hc.1
  · rw [if_neg hc] at hg
    subst hg
    exact List.mem_map.mpr ⟨r0, List.mem_filter.mpr
      ⟨hr0, decide_eq_true hrk⟩, rfl⟩

end Allokera

/-- C5: after the cross-line promotion pass, for every article X with some
AUTOSTORE allocated line, every line of X whose type is not HELPALL has
type AUTOSTORE and zone R — in particular none of them is HUVUDPLOCK. -/
theorem C5_promotion_invariant (rows : List Allokera.AllocatedLine)
    (r : Allokera.AllocatedLine) (hr : r ∈ Allokera.promote rows)
    (hrk : r.kalltyp = "AUTOSTORE") :
    ∀ s ∈ Allokera.promote rows, s.art = r.art → s.kalltyp ≠ "HELPALL" →
      s.kalltyp = "AUTOSTORE" ∧ s.zon = "R" := by
  intro s hs hart hsk
  have hmem := Allokera.promote_art_mem_autoArts rows r hr hrk
  rcases List.mem_map.mp hs with ⟨s0, hs0, hg⟩
  by_cases hc : s0.art ∈ ((rows.filter fun x =>
      x.kalltyp = "AUTOSTORE").map (fun x => x.art)) ∧ s0.kalltyp ≠ "HELPALL"
  · rw [if_pos hc] at hg
    rw [← hg]
    exact ⟨rfl, rfl⟩
  · rw [if_neg hc] at hg
    subst hg
    rw [not_and_or] at hc
    rcases hc with hc | hc
    · exact absurd (hart ▸ hmem) hc
    · exact absurd (not_not.mp hc) hsk

namespace Refill

theorem pyRound_intCast (n : ℤ) : pyRound (n : ℚ) = n := by
  unfold pyRound
  rw [Int.floor_intCast, sub_self]
  norm_num

theorem pyRound_le_add_half (q : ℚ) : (pyRound q : ℚ) ≤ q + 1 / 2 := by
  unfold pyRound
  have h0 := Int.floor_le q
  have h1 := Int.lt_floor_add_one q
  split_ifs with ha hb hc
  · linarith
  · push_cast
    linarith
  · linarith
  · push_cast
    have h2 : q - (⌊q⌋ : ℚ) = 1 / 2 := le_antisymm (not_lt.mp hb) (not_lt.mp ha)
    linarith

theorem sub_half_le_pyRound (q : ℚ) : q - 1 / 2 ≤ (pyRound q : ℚ) := by
  unfold pyRound
  have h0 := Int.floor_le q
  have h1 := Int.lt_floor_add_one q
  split_ifs with ha hb hc
  · linarith
  · push_cast
    linarith
  · have h2 : q - (⌊q⌋ : ℚ) = 1 / 2 := le_antisymm (not_lt.mp hb) (not_lt.mp ha)
    linarith
  · push_cast
    linarith

theorem zoneParts_sum (groups : List (String × ℚ)) (t adj : ℚ)
    (h : groups ≠ []) :
    ((zoneParts groups t adj).map (fun p => p.2)).sum = ⌊adj⌋ := by
  cases groups with
  | nil => exact absurd rfl h
  | cons g gs =>
    simp only [zoneParts, List.map_cons, List.sum_cons]
    ring

theorem zoneParts_pair (z0 z1 : String) (q0 q1 t adj : ℚ) :
    zoneParts [(z0, q0), (z1, q1)] t adj
      = [(z0, ⌊adj⌋ - pyRound (q1 / t * adj)),
         (z1, pyRound (q1 / t * adj))] := by
  simp only [zoneParts, List.map_cons, List.map_nil, List.sum_cons,
    List.sum_nil]
  have h2 : pyRound (q0 / t * adj)
      + (⌊adj⌋ - (pyRound (q0 / t * adj) + (pyRound (q1 / t * adj) + 0)))
      = ⌊adj⌋ - pyRound (q1 / t * adj) := by ring
  rw [h2]

theorem emitHpRows_behov_sum (artKey pp : String) (npu : ℚ)
    (fifoQtys : List ℚ) (parts : List (String × ℤ))
    (h : ∀ p ∈ parts, 0 ≤ p.2) :
    ((emitHpRows artKey parts fifoQtys pp npu).map (fun r => r.behov)).sum
      = (parts.map (fun p => p.2)).sum := by
  induction parts with
  | nil => simp [emitHpRows]
  | cons p ps ih =>
    have hp := h p (List.mem_cons_self p ps)
    have hps : ∀ x ∈ ps, 0 ≤ x.2 := fun x hx =>
      h x (List.mem_cons_of_mem _ hx)
    have hmax : max 0 p.2 = p.2 := max_eq_right hp
    have hrw : emitHpRows artKey (p :: ps) fifoQtys pp npu
        = (if max 0 p.2 ≤ 0 then []
            else [hpRow artKey p.1 (max 0 p.2) fifoQtys pp npu])
          ++ emitHpRows artKey ps fifoQtys pp npu := by
      simp only [emitHpRows, List.filterMap_cons]
      split_ifs <;> rfl
    rw [hrw]
    by_cases h0 : max 0 p.2 ≤ 0
    · have hz : p.2 = 0 := le_antisymm (hmax ▸ h0) hp
      rw [if_pos h0, List.nil_append, ih hps]
      simp [hz]
    · rw [if_neg h0, List.singleton_append]
      simp only [List.map_cons, List.sum_cons]
      rw [ih hps]
      have hb : (hpRow artKey p.1 (max 0 p.2) fifoQtys pp npu).behov
          = max 0 p.2 := rfl
      rw [hb, hmax]

theorem mainRowsForArt_pair_sum (artKey z0 z1 pp : String) (q0 q1 : ℚ)
    (S T : ℤ) (fifoQtys : List ℚ) (npu : ℚ)
    (h0 : 0 ≤ q0) (h1 : 0 ≤ q1) (hT : q0 + q1 = (T : ℚ))
    (hTpos : 0 < T) (hpos : 0 < T - S) :
    ((mainRowsForArt artKey [(z0, q0), (z1, q1)] (S : ℚ) fifoQtys pp
        npu).map (fun r => r.behov)).sum = T - S := by
  have hTQ : (0 : ℚ) < (T : ℚ) := by exact_mod_cast hTpos
  have hadjQ : (0 : ℚ) < (T : ℚ) - (S : ℚ) := by
    have h2 : ((T - S : ℤ) : ℚ) > 0 := by exact_mod_cast hpos
    push_cast at h2
    linarith
  have hsum : (([(z0, q0), (z1, q1)].map (fun g => g.2)).sum) = (T : ℚ) := by
    simp only [List.map_cons, List.map_nil, List.sum_cons, List.sum_nil]
    simpa using hT
  have hfl : ⌊(T : ℚ) - (S : ℚ)⌋ = T - S := by
    rw [show (T : ℚ) - (S : ℚ) = ((T - S : ℤ) : ℚ) by push_cast; ring,
      Int.floor_intCast]
  have hp1nn : 0 ≤ q1 / (T : ℚ) * ((T : ℚ) - S) :=
    mul_nonneg (div_nonneg h1 hTQ.le) hadjQ.le
  have hp1le : q1 / (T : ℚ) * ((T : ℚ) - S) ≤ (T : ℚ) - S := by
    have hq1T : q1 ≤ (T : ℚ) := by linarith
    have hd1 : q1 / (T : ℚ) ≤ 1 := (div_le_one hTQ).mpr hq1T
    exact mul_le_of_le_one_left hadjQ.le hd1
  have hv1nn : 0 ≤ pyRound (q1 / (T : ℚ) * ((T : ℚ) - S)) := by
    by_contra hneg
    push_neg at hneg
    have h2 : pyRound (q1 / (T : ℚ) * ((T : ℚ) - S)) ≤ -1 := by omega
    have h3 : (pyRound (q1 / (T : ℚ) * ((T : ℚ) - S)) : ℚ) ≤ -1 := by
      exact_mod_cast h2
    have h4 := sub_half_le_pyRound (q1 / (T : ℚ) * ((T : ℚ) - S))
    linarith
  have hv1le : pyRound (q1 / (T : ℚ) * ((T : ℚ) - S)) ≤ T - S := by
    by_contra hgt
    push_neg at hgt
    have h2 : T - S + 1 ≤ pyRound (q1 / (T : ℚ) * ((T : ℚ) - S)) := by omega
    have h3 : ((T - S + 1 : ℤ) : ℚ)
        ≤ (pyRound (q1 / (T : ℚ) * ((T : ℚ) - S)) : ℚ) := by exact_mod_cast h2
    push_cast at h3
    have h4 := pyRound_le_add_half (q1 / (T : ℚ) * ((T : ℚ) - S))
    linarith
  unfold mainRowsForArt
  rw [hsum, if_neg (not_le.mpr hTQ), pyRound_intCast,
    max_eq_right hadjQ.le, if_neg (not_le.mpr hadjQ), zoneParts_pair, hfl,
    emitHpRows_behov_sum]
  · simp only [List.map_cons, List.map_nil, List.sum_cons, List.sum_nil]
    omega
  · intro p hp
    simp only [List.mem_cons, List.not_mem_nil, or_false] at hp
    rcases hp with rfl | rfl
    · simp only
      omega
    · simpa using hv1nn

end Refill

/-- C6: in the main-pick branch of `calculate_refill`, for an article with
positive total integer demand split over its (at most two) zone groups and
positive integer shortfall after subtracting pick-face stock, the zone
parts — each share rounded independently, the rounding remainder added to
the first group — and thus the emitted rows' shortfall values sum exactly
to the article's shortfall; in particular demands 7 (zone A) and 3
(zone S) with pick-face stock 2 yield parts 6 and 2 summing to 8. -/
theorem C6_refill_shortfall_distribution (artKey z0 z1 pp : String)
    (q0 q1 : ℚ) (S T : ℤ) (fifoQtys : List ℚ) (npu : ℚ)
    (h0 : 0 ≤ q0) (h1 : 0 ≤ q1) (hT : q0 + q1 = (T : ℚ))
    (hTpos : 0 < T) (hpos : 0 < T - S) :
    ((Refill.mainRowsForArt artKey [(z0, q0), (z1, q1)] (S : ℚ) fifoQtys
        pp npu).map (fun r => r.behov)).sum = T - S ∧
      ((Refill.zoneParts [(z0, q0), (z1, q1)] (T : ℚ)
          ((T : ℚ) - S)).map (fun p => p.2)).sum = T - S ∧
      (Refill.mainRowsForArt "X" [("A", 7), ("S", 3)] 2 [] "" 0).map
        (fun r => (r.zon, r.behov)) = [("A", 6), ("S", 2)] := by
  refine ⟨Refill.mainRowsForArt_pair_sum artKey z0 z1 pp q0 q1 S T fifoQtys
    npu h0 h1 hT hTpos hpos, ?_, ?_⟩
  · rw [Refill.zoneParts_sum _ _ _ (by simp),
      show (T : ℚ) - (S : ℚ) = ((T - S : ℤ) : ℚ) by push_cast; ring,
      Int.floor_intCast]
  · have hA : Refill.pyRound (28 / 5 : ℚ) = 6 := by
      have hf : ⌊(28 / 5 : ℚ)⌋ = 5 := by norm_num
      unfold Refill.pyRound
      rw [hf]
      norm_num
    have hB : Refill.pyRound (12 / 5 : ℚ) = 2 := by
      have hf : ⌊(12 / 5 : ℚ)⌋ = 2 := by norm_num
      unfold Refill.pyRound
      rw [hf]
      norm_num
    have hC : Refill.pyRound (10 : ℚ) = 10 := by
      have hf : ⌊(10 : ℚ)⌋ = 10 := by norm_num
      unfold Refill.pyRound
      rw [hf]
      norm_num
    have hD : Refill.pyRound (0 : ℚ) = 0 := by
      have hf : ⌊(0 : ℚ)⌋ = 0 := by norm_num
      unfold Refill.pyRound
      rw [hf]
      norm_num
    norm_num [Refill.mainRowsForArt, Refill.zoneParts, Refill.emitHpRows,
      Refill.hpRow, Refill.fifoCount, hA, hB, hC, hD, List.filterMap_cons,
      max_def]

/-- Witness for C6 at scenario D's numbers: demands 7 and 3, stock 2,
emitted shortfalls sum to 8. -/
theorem C6_refill_shortfall_distribution_witness :
    ((Refill.mainRowsForArt "X" [("A", 7), ("S", 3)] ((2 : ℤ) : ℚ) [] ""
        0).map (fun r => r.behov)).sum = (10 : ℤ) - 2 :=
  (C6_refill_shortfall_distribution "X" "A" "S" "" 7 3 2 10 [] 0
    (by norm_num) (by norm_num) (by norm_num) (by norm_num)
    (by norm_num)).1

namespace Refill

theorem hpRow_flag (artKey z : String) (b : ℤ) (fifoQtys : List ℚ)
    (pp : String) (npu : ℚ) :
    ((hpRow artKey z b fifoQtys pp npu).tillracklig = "Ja" ↔
      fifoQtys.sum ≥ ((hpRow artKey z b fifoQtys pp npu).behov : ℚ)) := by
  unfold hpRow
  split_ifs with h
  · exact iff_of_true rfl h
  · exact iff_of_false (by simp) h

theorem mainRowsForArt_flag (artKey pp : String)
    (groups : List (String × ℚ)) (saldo : ℚ) (fifoQtys : List ℚ)
    (npu : ℚ) :
    ∀ r ∈ mainRowsForArt artKey groups saldo fifoQtys pp npu,
      (r.tillracklig = "Ja" ↔ fifoQtys.sum ≥ (r.behov : ℚ)) := by
  intro r hr
  unfold mainRowsForArt at hr
  split_ifs at hr
  · cases hr
  · cases hr
  · rcases List.mem_filterMap.mp hr with ⟨part, -, heq⟩
    by_cases hcond : max 0 part.2 ≤ 0
    · rw [if_pos hcond] at heq
      cases heq
    · rw [if_neg hcond, Option.some_inj] at heq
      subst heq
      exact hpRow_flag artKey part.1 (max 0 part.2) fifoQtys pp npu

theorem asRowForArt_flag (artKey pp : String) (behov saldo : ℚ)
    (fifoQtys : List ℚ) (npu : ℚ) (r : RefillRow)
    (h : asRowForArt artKey behov saldo fifoQtys pp npu = some r) :
    (r.tillracklig = "Ja" ↔ fifoQtys.sum ≥ (r.behov : ℚ)) := by
  unfold asRowForArt at h
  by_cases h0 : ⌊max 0 ((pyRound behov : ℚ) - saldo)⌋ ≤ 0
  · rw [if_pos h0] at h
    cases h
  · rw [if_neg h0, Option.some_inj] at h
    subst h
    by_cases h1 : fifoQtys.sum
        ≥ ((⌊max 0 ((pyRound behov : ℚ) - saldo)⌋ : ℤ) : ℚ)
    · rw [if_pos h1]
      exact iff_of_true rfl h1
    · rw [if_neg h1]
      exact iff_of_false (by simp) h1

end Refill

/-- C7 counterexample: article with demands 7 (zone A) and 3 (zone S),
pick-face stock 2 (article shortfall 8) and a single remaining buffer
unit of 7: the total available (7) is smaller than the article's
shortfall (8), yet both emitted rows carry sufficiency flag "Ja",
because the code compares the available total to each row's own zone
part (6 and 2), not to the article's shortfall. -/
theorem C7_counterexample :
    ((Refill.mainRowsForArt "X" [("A", 7), ("S", 3)] 2 [7] "" 0).map
        (fun r => (r.behov, r.tillracklig))) = [(6, "Ja"), (2, "Ja")] ∧
      max 0 ((Refill.pyRound
          ((([("A", (7 : ℚ)), ("S", 3)].map (fun g => g.2)).sum)) : ℚ) - 2)
        = 8 ∧
      List.sum [(7 : ℚ)] < 8 := by
  have hA : Refill.pyRound (28 / 5 : ℚ) = 6 := by
    have hf : ⌊(28 / 5 : ℚ)⌋ = 5 := by norm_num
    unfold Refill.pyRound
    rw [hf]
    norm_num
  have hB : Refill.pyRound (12 / 5 : ℚ) = 2 := by
    have hf : ⌊(12 / 5 : ℚ)⌋ = 2 := by norm_num
    unfold Refill.pyRound
    rw [hf]
    norm_num
  have hC : Refill.pyRound (10 : ℚ) = 10 := by
    have hf : ⌊(10 : ℚ)⌋ = 10 := by norm_num
    unfold Refill.pyRound
    rw [hf]
    norm_num
  have hD : Refill.pyRound (0 : ℚ) = 0 := by
    have hf : ⌊(0 : ℚ)⌋ = 0 := by norm_num
    unfold Refill.pyRound
    rw [hf]
    norm_num
  refine ⟨?_, ?_, by norm_num⟩
  · norm_num [Refill.mainRowsForArt, Refill.zoneParts, Refill.emitHpRows,
      Refill.hpRow, Refill.fifoCount, hA, hB, hC, hD,
      List.filterMap_cons, max_def]
  · norm_num [hC]

/-- C7 amended: in every emitted refill row (both branches), the
sufficiency flag is "Ja" iff the total available remaining buffer
quantity is ≥ the row's own shortfall value — the zone part in the
main-pick branch (not the article's total shortfall), and the article
shortfall in the autostore branch. -/
theorem C7_sufficiency_flag (artKey pp : String)
    (groups : List (String × ℚ)) (saldo : ℚ) (fifoQtys : List ℚ)
    (npu : ℚ) :
    (∀ r ∈ Refill.mainRowsForArt artKey groups saldo fifoQtys pp npu,
        (r.tillracklig = "Ja" ↔ fifoQtys.sum ≥ (r.behov : ℚ))) ∧
      (∀ (behov : ℚ) (r : Refill.RefillRow),
        Refill.asRowForArt artKey behov saldo fifoQtys pp npu = some r →
        (r.tillracklig = "Ja" ↔ fifoQtys.sum ≥ (r.behov : ℚ))) :=
  ⟨Refill.mainRowsForArt_flag artKey pp groups saldo fifoQtys npu,
   fun behov r h =>
     Refill.asRowForArt_flag artKey pp behov saldo fifoQtys npu r h⟩

/-- Witness for C7 amended at the counterexample input: the zone-A row
has flag "Ja" and indeed 7 ≥ its own shortfall 6. -/
theorem C7_sufficiency_flag_witness :
    (({ artikel := "X", zon := "A", behov := 6, fifo := 1,
        tillracklig := "Ja", plockplats := "", ejInlagrade := 0 } :
          Refill.RefillRow).tillracklig = "Ja" ↔
      List.sum [(7 : ℚ)]
        ≥ ((({ artikel := "X", zon := "A", behov := 6, fifo := 1,
               tillracklig := "Ja", plockplats := "", ejInlagrade := 0 } :
                Refill.RefillRow).behov : ℚ))) :=
  (C7_sufficiency_flag "X" "" [("A", 7), ("S", 3)] 2 [7] 0).1
    { artikel := "X", zon := "A", behov := 6, fifo := 1,
      tillracklig := "Ja", plockplats := "", ejInlagrade := 0 }
    (by
      have hA : Refill.pyRound (28 / 5 : ℚ) = 6 := by
        have hf : ⌊(28 / 5 : ℚ)⌋ = 5 := by norm_num
        unfold Refill.pyRound
        rw [hf]
        norm_num
      have hB : Refill.pyRound (12 / 5 : ℚ) = 2 := by
        have hf : ⌊(12 / 5 : ℚ)⌋ = 2 := by norm_num
        unfold Refill.pyRound
        rw [hf]
        norm_num
      have hC : Refill.pyRound (10 : ℚ) = 10 := by
        have hf : ⌊(10 : ℚ)⌋ = 10 := by norm_num
        unfold Refill.pyRound
        rw [hf]
        norm_num
      have hD : Refill.pyRound (0 : ℚ) = 0 := by
        have hf : ⌊(0 : ℚ)⌋ = 0 := by norm_num
        unfold Refill.pyRound
        rw [hf]
        norm_num
      norm_num [Refill.mainRowsForArt, Refill.zoneParts, Refill.emitHpRows,
        Refill.hpRow, Refill.fifoCount, hA, hB, hC, hD,
        List.filterMap_cons, max_def])

/-- C8 counterexample: the empty near-miss table and the empty refill
tables are built as bare `pd.DataFrame(rows)` from an empty record list,
which yields a frame with no columns at all — not the full expected
column set the claim asserts for every empty result table. -/
theorem C8_counterexample :
    (Tables.nearMissTable []).cols = [] ∧
      (Tables.refillHpTable []).cols = [] ∧
      (Tables.refillAsTable []).cols = [] ∧
      Tables.nearMissExpectedCols ≠ [] ∧
      Tables.refillHpExpectedCols ≠ [] :=
  ⟨rfl, rfl, rfl, by decide, by decide⟩

/-- C8 amended: only the allocated-lines table keeps the full expected
column set when empty (it is rebuilt as
`pd.DataFrame(columns=ordered_cols)`); the empty near-miss table and both
empty refill tables are zero-row, zero-column frames — still tables,
never null, but without their expected columns. -/
theorem C8_empty_tables (orderedCols : List String) :
    (Tables.allocatedTable [] orderedCols).cols = orderedCols ∧
      (Tables.allocatedTable [] orderedCols).rows = [] ∧
      (Tables.nearMissTable []).cols = [] ∧
      (Tables.nearMissTable []).rows = [] ∧
      (Tables.refillHpTable []).cols = [] ∧
      (Tables.refillHpTable []).rows = [] ∧
      (Tables.refillAsTable []).cols = [] ∧
      (Tables.refillAsTable []).rows = [] :=
  ⟨rfl, rfl, rfl, rfl, rfl, rfl, rfl, rfl⟩

/-- C9: when a required logical column cannot be resolved, `find_col`
fails fast with an error carrying exactly the candidate names tried and
the table's actual columns; the candidate list of every required field
contains the field's plain name (article / quantity / location), so the
message names the field; optional resolution (required=False) never
raises. -/
theorem C9_missing_required_column (cols : List String) :
    (∀ (cands : List String) (e : Schema.FindColError),
        Schema.find_col cols cands true none = .error e →
        e.candidates = cands ∧ e.columns = cols) ∧
      (∀ (cands : List String) (d : Option String)
          (e : Schema.FindColError),
        Schema.find_col cols cands false d ≠ .error e) ∧
      ("article" ∈ Schema.ORDER_ARTIKEL ∧ "quantity" ∈ Schema.ORDER_QTY ∧
        "article" ∈ Schema.BUFFER_ARTIKEL ∧
        "quantity" ∈ Schema.BUFFER_QTY ∧
        "location" ∈ Schema.BUFFER_LOC) := by
  refine ⟨?_, ?_, by decide⟩
  · intro cands e h
    unfold Schema.find_col at h
    rw [if_pos (⟨rfl, rfl⟩ :
      ((true = true) ∧ (none : Option String) = none))] at h
    split at h
    · cases h
    · split at h
      · cases h
      · cases h
        exact ⟨rfl, rfl⟩
  · intro cands d e h
    unfold Schema.find_col at h
    rw [if_neg (fun hc => Bool.false_ne_true hc.1 :
      ¬((false = true) ∧ d = none))] at h
    split at h
    · cases h
    · split at h
      · cases h
      · cases h

/-- Witness for C9: a table whose only column is "foo" cannot resolve the
order quantity field; the raised error carries the quantity candidate
list and the table's columns. -/
theorem C9_missing_required_column_witness :
    ({ candidates := Schema.ORDER_QTY, columns := ["foo"] } :
        Schema.FindColError).candidates = Schema.ORDER_QTY ∧
      ({ candidates := Schema.ORDER_QTY, columns := ["foo"] } :
        Schema.FindColError).columns = ["foo"] :=
  (C9_missing_required_column ["foo"]).1 Schema.ORDER_QTY
    { candidates := Schema.ORDER_QTY, columns := ["foo"] } (by decide)

/-- Witness for C5: two lines of article A, one genuine AUTOSTORE line and
one HUVUDPLOCK fallback; after the pass the fallback is AUTOSTORE / R. -/
theorem C5_promotion_invariant_witness :
    ({ art := "A", orderId := "o2", orderLine := "r2", qty := 7,
       zon := "R", kalltyp := "AUTOSTORE", kalla := "",
       kallplats := "" } : Allokera.AllocatedLine).kalltyp = "AUTOSTORE" ∧
      ({ art := "A", orderId := "o2", orderLine := "r2", qty := 7,
         zon := "R", kalltyp := "AUTOSTORE", kalla := "",
         kallplats := "" } : Allokera.AllocatedLine).zon = "R" :=
  C5_promotion_invariant
    [{ art := "A", orderId := "o1", orderLine := "r1", qty := 3,
       zon := "R", kalltyp := "AUTOSTORE", kalla := "B1",
       kallplats := "AUTOSTORE-1" },
     { art := "A", orderId := "o2", orderLine := "r2", qty := 7,
       zon := "A", kalltyp := "HUVUDPLOCK", kalla := "", kallplats := "" }]
    { art := "A", orderId := "o1", orderLine := "r1", qty := 3,
      zon := "R", kalltyp := "AUTOSTORE", kalla := "B1",
      kallplats := "AUTOSTORE-1" }
    (by decide) rfl
    { art := "A", orderId := "o2", orderLine := "r2", qty := 7,
      zon := "R", kalltyp := "AUTOSTORE", kalla := "", kallplats := "" }
    (by decide) rfl (by decide)


namespace Allokera

theorem helpallLoop_allocs_qty_pos (orow : OrderLine) (q : List BufUnit)
    (hq : ∀ u ∈ q, 0 < u.qty) :
    ∀ need : ℚ, ∀ a ∈ (helpallLoop orow q need).allocs, 0 < a.qty := by
  induction q with
  | nil => intro need a ha; cases ha
  | cons pal tmp ih =>
    intro need a ha
    have hq' : ∀ u ∈ tmp, 0 < u.qty := fun u hu =>
      hq u (List.mem_cons_of_mem _ hu)
    by_cases h1 : need ≤ 0
    · rw [show (helpallLoop orow (pal :: tmp) need).allocs = [] by
        simp [helpallLoop, h1]] at ha
      cases ha
    · by_cases h2 : pal.qty ≤ need
      · simp only [helpallLoop, if_neg h1, if_pos h2, List.mem_cons] at ha
        rcases ha with rfl | ha
        · exact hq pal (List.mem_cons_self pal tmp)
        · exact ih hq' (need - pal.qty) a ha
      · simp only [helpallLoop, if_neg h1, if_neg h2] at ha
        exact ih hq' need a ha

theorem autostoreLoop_allocs_qty_pos (orow : OrderLine)
    (q : List BufUnit) :
    ∀ need : ℚ, ∀ a ∈ (autostoreLoop orow q need).allocs, 0 < a.qty := by
  induction q with
  | nil => intro need a ha; cases ha
  | cons binr bq ih =>
    intro need a ha
    by_cases h1 : need ≤ 0
    · rw [show (autostoreLoop orow (binr :: bq) need).allocs = [] by
        simp [autostoreLoop, h1]] at ha
      cases ha
    · by_cases h2 : min binr.qty need > 0
      · simp only [autostoreLoop, if_neg h1, if_pos h2, List.mem_cons] at ha
        rcases ha with rfl | ha
        · exact h2
        · exact ih (need - min binr.qty need) a ha
      · simp only [autostoreLoop, if_neg h1, if_neg h2] at ha
        exact ih need a ha

theorem processLine_allocs_qty_pos (orow : OrderLine)
    (pq bq : List BufUnit) (hq : ∀ u ∈ pq, 0 < u.qty) :
    ∀ a ∈ (processLine orow pq bq).allocs, 0 < a.qty := by
  intro a ha
  simp only [processLine, List.mem_append] at ha
  rcases ha with (ha | ha) | ha
  · exact helpallLoop_allocs_qty_pos orow pq hq orow.qty a ha
  · exact autostoreLoop_allocs_qty_pos orow bq _ a ha
  · rcases Classical.em
        ((autostoreLoop orow bq (helpallLoop orow pq orow.qty).need).need
          > 0) with hm | hm
    · rw [if_pos hm] at ha
      rcases List.mem_singleton.mp ha with rfl
      exact hm
    · rw [if_neg hm] at ha
      cases ha

theorem allocStep_inv (st : AllocState) (orow : OrderLine)
    (hp : ∀ art, ∀ u ∈ st.pallets art, 0 < u.qty)
    (ha : ∀ a ∈ st.allocs, 0 < a.qty) :
    (∀ art, ∀ u ∈ (allocStep st orow).pallets art, 0 < u.qty) ∧
      (∀ a ∈ (allocStep st orow).allocs, 0 < a.qty) := by
  by_cases h0 : orow.qty ≤ 0
  · rw [allocStep, if_pos h0]
    exact ⟨hp, ha⟩
  · rw [allocStep, if_neg h0]
    constructor
    · intro art u hu
      simp only [Queues.set] at hu
      by_cases hart : art = orow.art
      · rw [if_pos hart] at hu
        have hsub : (processLine orow (st.pallets orow.art)
              (st.bins orow.art)).pq.Sublist (st.pallets orow.art) :=
          helpallLoop_pq_sublist orow (st.pallets orow.art) orow.qty
        exact hp orow.art u (hsub.subset hu)
      · rw [if_neg hart] at hu
        exact hp art u hu
    · intro a hamem
      simp only [List.mem_append] at hamem
      rcases hamem with hamem | hamem
      · exact ha a hamem
      · exact processLine_allocs_qty_pos orow (st.pallets orow.art)
          (st.bins orow.art) (hp orow.art) a hamem

theorem allocFold_inv (orders : List OrderLine) :
    ∀ st : AllocState,
      (∀ art, ∀ u ∈ st.pallets art, 0 < u.qty) →
      (∀ a ∈ st.allocs, 0 < a.qty) →
      ∀ a ∈ (orders.foldl allocStep st).allocs, 0 < a.qty := by
  induction orders with
  | nil => intro st hp ha; simpa using ha
  | cons o os ih =>
    intro st hp ha
    simp only [List.foldl_cons]
    obtain ⟨hp', ha'⟩ := allocStep_inv st o hp ha
    exact ih (allocStep st o) hp' ha'

theorem promote_qty_pos (rows : List AllocatedLine)
    (h : ∀ a ∈ rows, 0 < a.qty) :
    ∀ a ∈ promote rows, 0 < a.qty := by
  intro a hamem
  rcases List.mem_map.mp hamem with ⟨r0, hr0, hg⟩
  have hr0pos := h r0 hr0
  split at hg
  · rw [← hg]
    exact hr0pos
  · rw [← hg]
    exact hr0pos

end Allokera

/-- C10: every AllocatedLine produced by `allocate` has strictly positive
allocated quantity, provided the pallet queues contain only units with
positive quantity (which the buffer filter `_qty > 0` guarantees):
HELPALL lines carry a whole such unit, AUTOSTORE lines are emitted only
when the consumed amount is positive, the HUVUDPLOCK line only when
remaining need is positive, and the promotion pass keeps quantities. -/
theorem C10_allocations_positive (orders : List Allokera.OrderLine)
    (pallets bins : Allokera.Queues)
    (hp : ∀ art, ∀ u ∈ pallets art, 0 < u.qty) :
    ∀ a ∈ (Allokera.allocate orders pallets bins).1, 0 < a.qty := by
  intro a hamem
  simp only [Allokera.allocate] at hamem
  refine Allokera.promote_qty_pos _ ?_ a hamem
  exact Allokera.allocFold_inv orders
    { pallets := pallets, bins := bins, allocs := [], ns := [] }
    hp (fun x hx => absurd hx (List.not_mem_nil x))

/-- Witness for C10: a line with need 10 and empty buffer yields a single
HUVUDPLOCK line of quantity 10 > 0. -/
theorem C10_allocations_positive_witness :
    0 < (Allokera.mkHuvudplockLine ⟨"A", 10, "o1", "r1"⟩ 10).qty :=
  C10_allocations_positive [⟨"A", 10, "o1", "r1"⟩] (fun _ => [])
    (fun _ => [])
    (fun art u hu => absurd hu (List.not_mem_nil u))
    (Allokera.mkHuvudplockLine ⟨"A", 10, "o1", "r1"⟩ 10) (by decide)
